import Mathlib

/-!
# Verification of the pilight Byron chime protocols

Shallow embedding of `src/libs/pilight/protocols/433.92/byron_by_chime.c` and
`byron_sx_chime.c`.  The protocol state (`raw` pulse buffer, `rawlen`,
`message`) of the C global struct is made explicit as a `ProtoState` record
threaded through the operations.  Pulse buffers are total maps `ℤ → ℤ` so that
out-of-bounds writes performed by the C code are observable in the model.

The helpers `decToBin` and `binToDecRev` live in pilight's `core/binary.c`,
which is not part of the given sources; they are modelled from the
specification (spec §4.4/§4.5: most-significant-bit-first conversion between
bit slices and integers).
-/

namespace Pilight

/-- A write into the raw pulse buffer: `raw[i] = v`. -/
def update (raw : ℤ → ℤ) (i v : ℤ) : ℤ → ℤ :=
  fun j => if j = i then v else raw j

/-- The explicit protocol state: the C global struct's `raw` buffer (a total
map, so stray indices are observable), `rawlen`, and the decoded `message`
(a JSON object, modelled as an association list from field name to number). -/
structure ProtoState where
  raw : ℤ → ℤ
  rawlen : ℕ
  message : Option (List (String × ℤ))

/-- A fresh state: zeroed buffer, no length, no message. -/
def initState : ProtoState := ⟨fun _ => 0, 0, none⟩

/-- `json_mkobject` plus the three `json_append_member` calls of
`createMessage` in both protocol files: the decoded message is the
association list with keys "systemcode", "unitcode", "id". -/
def createMessage (sys unit bell : ℤ) : List (String × ℤ) :=
  [("systemcode", sys), ("unitcode", unit), ("id", bell)]

/-- `json_find_number(code, key, &itmp)`: looks the key up in the record,
`some` value when present. -/
def json_find_number : List (String × ℤ) → String → Option ℤ
  | [], _ => none
  | (k, v) :: rest, key => if k = key then some v else json_find_number rest key

/-- The body of the C loop `for(i = s; i <= e; i += 2) { raw[i] = v1;
raw[i+1] = v2; }` shared by `createZero`/`createOne`, unrolled over its
iteration count `n` (structural recursion, so concrete frames evaluate). -/
def pairLoopN (v1 v2 : ℤ) : ℕ → ℤ → (ℤ → ℤ) → (ℤ → ℤ)
  | 0, _, raw => raw
  | n + 1, s, raw => pairLoopN v1 v2 n (s + 2) (update (update raw s v1) (s + 1) v2)

/-- `for(i = s; i <= e; i += 2) { raw[i] = v1; raw[i+1] = v2; }`:
the loop runs `(e - s)/2 + 1` times when `s ≤ e`, otherwise not at all. -/
def pairLoop (v1 v2 : ℤ) (s e : ℤ) (raw : ℤ → ℤ) : ℤ → ℤ :=
  pairLoopN v1 v2 (if s ≤ e then (e - s).toNat / 2 + 1 else 0) s raw

/-- The shared shape of `createSys`/`createUnit`/`createId`:
`for (i = length; i >= 0; i--) { if (binary[i] == 1) createOne(x, x+1); x -= 2; }`.
The loop visits `binary[length], binary[length-1], …, binary[0]` — the
reversed bit list — writing the one-pattern pair `(v1, v2)` at `(x, x+1)`
for each set bit, with `x` decreasing by 2 each step. -/
def fieldLoop (v1 v2 : ℤ) : List ℕ → ℤ → (ℤ → ℤ) → (ℤ → ℤ)
  | [], _, raw => raw
  | b :: bs, x, raw =>
      fieldLoop v1 v2 bs (x - 2) (if b = 1 then pairLoop v1 v2 x (x + 1) raw else raw)

/-- Modelled from the spec: the binary expansion underlying `decToBin` of
pilight's `core/binary.c` (the file is not under `src/`).  Least significant
bit first; the first argument is fuel (`n` itself suffices, since the value
halves each step), keeping the definition structural so it evaluates. -/
def decToBinAux : ℕ → ℕ → List ℕ
  | _, 0 => []
  | 0, _ => []
  | fuel + 1, n => n % 2 :: decToBinAux fuel (n / 2)

/-- Modelled from the spec: `decToBin` of pilight's `core/binary.c` (not under
`src/`).  Spec §4.5: a field value is expanded most-significant-bit first; the
callers' use (`length = decToBin(v, binary)`, then `binary[length]` pairs with
the field's last pulse pair) fixes the list as the MSB-first bit string of the
value, `[0]` when the value is not positive (the C loop `while (n > 0)` never
runs then). -/
def decToBin (n : ℤ) : List ℕ :=
  if n ≤ 0 then [0] else (decToBinAux n.toNat n.toNat).reverse

/-- Value of a bit list read most-significant-bit first, left to right. -/
def bitsVal (l : List ℕ) : ℕ :=
  l.foldl (fun a b => 2 * a + b) 0

/-- Value of a bit list read least-significant-bit first. -/
def lsbVal : List ℕ → ℕ
  | [] => 0
  | b :: bs => b + 2 * lsbVal bs

/-- Modelled from the spec: `binToDecRev(binary, s, e)` of pilight's
`core/binary.c` (not under `src/`).  Spec §4.4: take bits `[s, e]` of the
bit vector and read them as a most-significant-bit-first binary number,
left to right. -/
def binToDecRev (binary : List ℕ) (s e : ℕ) : ℕ :=
  bitsVal ((binary.drop s).take (e + 1 - s))

end Pilight

namespace byron_by_chime

open Pilight

def PULSE_MULTIPLIER : ℤ := 2
def MIN_PULSE_LENGTH : ℤ := 407
def AVG_PULSE_LENGTH : ℤ := 400
def MAX_PULSE_LENGTH : ℤ := 572
def RAW_LENGTH : ℕ := 42
def FOOTER_MULTIPLIER : ℤ := 6

/-- `validate()` of byron_by_chime.c: 0 on success, -1 on failure. -/
def validate (st : ProtoState) : ℤ :=
  if st.rawlen = RAW_LENGTH then
    if MIN_PULSE_LENGTH * FOOTER_MULTIPLIER ≤ st.raw ((st.rawlen : ℤ) - 1) ∧
        st.raw ((st.rawlen : ℤ) - 1) ≤ MAX_PULSE_LENGTH * FOOTER_MULTIPLIER ∧
        MIN_PULSE_LENGTH ≤ st.raw 0 ∧ st.raw 0 ≤ MAX_PULSE_LENGTH then 0
    else -1
  else -1

/-- The long-pulse threshold of `parseCode`:
`(int)((double)MIN_PULSE_LENGTH*((double)PULSE_MULTIPLIER))`, the same for
every pulse index `x`. -/
def longPulse (_x : ℕ) : ℤ := MIN_PULSE_LENGTH * PULSE_MULTIPLIER

/-- The bit array filled by `parseCode`'s loop
`for(x = 0; x < rawlen-1; x += 2) binary[x/2] = raw[x+1] > longPulse ? 1 : 0`. -/
def binaryOf (st : ProtoState) : List ℕ :=
  (List.range ((st.rawlen - 1 + 1) / 2)).map fun p =>
    if longPulse (2 * p) < st.raw (2 * (p : ℤ) + 1) then 1 else 0

/-- `parseCode()` of byron_by_chime.c: rejects `rawlen > RAW_LENGTH`
(message left untouched), otherwise demodulates and stores the message. -/
def parseCode (st : ProtoState) : ProtoState :=
  if RAW_LENGTH < st.rawlen then st
  else
    { st with message := some (createMessage
        (binToDecRev (binaryOf st) 0 7)
        (binToDecRev (binaryOf st) 8 15)
        (binToDecRev (binaryOf st) 16 19)) }

/-- `createZero(s, e)`: short-then-long pairs at `AVG`, `AVG*2`. -/
def createZero (s e : ℤ) (raw : ℤ → ℤ) : ℤ → ℤ :=
  pairLoop AVG_PULSE_LENGTH (AVG_PULSE_LENGTH * PULSE_MULTIPLIER) s e raw

/-- `createOne(s, e)`: long-then-short pairs at `AVG*2`, `AVG`. -/
def createOne (s e : ℤ) (raw : ℤ → ℤ) : ℤ → ℤ :=
  pairLoop (AVG_PULSE_LENGTH * PULSE_MULTIPLIER) AVG_PULSE_LENGTH s e raw

/-- `createHeader()`: `raw[0] = AVG_PULSE_LENGTH`. -/
def createHeader (raw : ℤ → ℤ) : ℤ → ℤ :=
  update raw 0 AVG_PULSE_LENGTH

/-- `createFooter()`: `raw[rawlen-1] = FOOTER_MULTIPLIER*AVG_PULSE_LENGTH`. -/
def createFooter (rawlen : ℕ) (raw : ℤ → ℤ) : ℤ → ℤ :=
  update raw ((rawlen : ℤ) - 1) (FOOTER_MULTIPLIER * AVG_PULSE_LENGTH)

/-- `clearCode()`: header, then zero pattern over `[1, rawlen-3]`. -/
def clearCode (rawlen : ℕ) (raw : ℤ → ℤ) : ℤ → ℤ :=
  createZero 1 ((rawlen : ℤ) - 3) (createHeader raw)

/-- `createSys(sys)`: bits of `sys` from `binary[length]` down to `binary[0]`,
one-pattern pairs from `x = 15` downwards. -/
def createSys (sys : ℤ) (raw : ℤ → ℤ) : ℤ → ℤ :=
  fieldLoop (AVG_PULSE_LENGTH * PULSE_MULTIPLIER) AVG_PULSE_LENGTH
    (decToBin sys).reverse 15 raw

/-- `createUnit(unit)`: as `createSys`, from `x = 31` downwards. -/
def createUnit (unit : ℤ) (raw : ℤ → ℤ) : ℤ → ℤ :=
  fieldLoop (AVG_PULSE_LENGTH * PULSE_MULTIPLIER) AVG_PULSE_LENGTH
    (decToBin unit).reverse 31 raw

/-- `createId(id)`: as `createSys`, from `x = 39` downwards. -/
def createId (id : ℤ) (raw : ℤ → ℤ) : ℤ → ℤ :=
  fieldLoop (AVG_PULSE_LENGTH * PULSE_MULTIPLIER) AVG_PULSE_LENGTH
    (decToBin id).reverse 39 raw

/-- `createCode(code)` of byron_by_chime.c.  Returns `(retVal, state)`:
`0` (`EXIT_SUCCESS`) with the built frame, or `1` (`EXIT_FAILURE`) with the
state untouched when a mandatory field is missing (the `-1` sentinel). -/
def createCode (code : List (String × ℤ)) (st : ProtoState) : ℤ × ProtoState :=
  let sys := (json_find_number code "systemcode").getD (-1)
  let unit := (json_find_number code "unit").getD (-1)
  let id := (json_find_number code "id").getD (-1)
  if sys = -1 ∨ unit = -1 ∨ id = -1 then (1, st)
  else
    (0, { raw := createFooter RAW_LENGTH
            (createId id (createUnit unit (createSys sys (clearCode RAW_LENGTH st.raw)))),
          rawlen := RAW_LENGTH,
          message := some (createMessage sys unit id) })

end byron_by_chime

namespace byron_sx_chime

open Pilight

def PULSE_SHORT : ℤ := 450
def PULSE_LONG : ℤ := 900
def PULSE_FOOTER : ℤ := 3000
def PULSE_50 : ℤ := 750
def PULSE_MULTIPLIER : ℤ := 2
def AVG_PULSE_LENGTH : ℤ := PULSE_SHORT
def MIN_PULSE_LENGTH : ℤ := AVG_PULSE_LENGTH - 80
def MAX_PULSE_LENGTH : ℤ := AVG_PULSE_LENGTH + 260
def RAW_LENGTH : ℕ := 42

/-- `validate()` of byron_sx_chime.c: footer window
`[(int)(PULSE_FOOTER*0.9), (int)(PULSE_FOOTER*1.5)] = [2700, 4500]`,
header window `[MIN_PULSE_LENGTH, MAX_PULSE_LENGTH] = [370, 710]`. -/
def validate (st : ProtoState) : ℤ :=
  if st.rawlen = RAW_LENGTH then
    if 2700 ≤ st.raw ((st.rawlen : ℤ) - 1) ∧
        st.raw ((st.rawlen : ℤ) - 1) ≤ 4500 ∧
        MIN_PULSE_LENGTH ≤ st.raw 0 ∧ st.raw 0 ≤ MAX_PULSE_LENGTH then 0
    else -1
  else -1

/-- `int longPulse = (x==0) ? PULSE_50-50 : PULSE_50;` of `parseCode`:
the threshold for the very first pulse pair is lowered by 50. -/
def longPulse (x : ℕ) : ℤ :=
  if x = 0 then PULSE_50 - 50 else PULSE_50

/-- The bit array filled by `parseCode`'s loop. -/
def binaryOf (st : ProtoState) : List ℕ :=
  (List.range ((st.rawlen - 1 + 1) / 2)).map fun p =>
    if longPulse (2 * p) < st.raw (2 * (p : ℤ) + 1) then 1 else 0

/-- `parseCode()` of byron_sx_chime.c. -/
def parseCode (st : ProtoState) : ProtoState :=
  if RAW_LENGTH < st.rawlen then st
  else
    { st with message := some (createMessage
        (binToDecRev (binaryOf st) 0 7)
        (binToDecRev (binaryOf st) 8 15)
        (binToDecRev (binaryOf st) 16 19)) }

/-- `createZero(s, e)`: `PULSE_SHORT` then `PULSE_LONG`. -/
def createZero (s e : ℤ) (raw : ℤ → ℤ) : ℤ → ℤ :=
  pairLoop PULSE_SHORT PULSE_LONG s e raw

/-- `createOne(s, e)`: `PULSE_LONG` then `PULSE_SHORT`. -/
def createOne (s e : ℤ) (raw : ℤ → ℤ) : ℤ → ℤ :=
  pairLoop PULSE_LONG PULSE_SHORT s e raw

/-- `createHeader()`: `raw[0] = PULSE_SHORT`. -/
def createHeader (raw : ℤ → ℤ) : ℤ → ℤ :=
  update raw 0 PULSE_SHORT

/-- `createFooter()`: `raw[rawlen-1] = PULSE_FOOTER`. -/
def createFooter (rawlen : ℕ) (raw : ℤ → ℤ) : ℤ → ℤ :=
  update raw ((rawlen : ℤ) - 1) PULSE_FOOTER

/-- `clearCode()`: header, then zero pattern over `[1, rawlen-3]`. -/
def clearCode (rawlen : ℕ) (raw : ℤ → ℤ) : ℤ → ℤ :=
  createZero 1 ((rawlen : ℤ) - 3) (createHeader raw)

/-- `createSys(sys)` of byron_sx_chime.c. -/
def createSys (sys : ℤ) (raw : ℤ → ℤ) : ℤ → ℤ :=
  fieldLoop PULSE_LONG PULSE_SHORT (decToBin sys).reverse 15 raw

/-- `createUnit(unit)` of byron_sx_chime.c. -/
def createUnit (unit : ℤ) (raw : ℤ → ℤ) : ℤ → ℤ :=
  fieldLoop PULSE_LONG PULSE_SHORT (decToBin unit).reverse 31 raw

/-- `createId(id)` of byron_sx_chime.c. -/
def createId (id : ℤ) (raw : ℤ → ℤ) : ℤ → ℤ :=
  fieldLoop PULSE_LONG PULSE_SHORT (decToBin id).reverse 39 raw

/-- `createCode(code)` of byron_sx_chime.c. -/
def createCode (code : List (String × ℤ)) (st : ProtoState) : ℤ × ProtoState :=
  let sys := (json_find_number code "systemcode").getD (-1)
  let unit := (json_find_number code "unit").getD (-1)
  let id := (json_find_number code "id").getD (-1)
  if sys = -1 ∨ unit = -1 ∨ id = -1 then (1, st)
  else
    (0, { raw := createFooter RAW_LENGTH
            (createId id (createUnit unit (createSys sys (clearCode RAW_LENGTH st.raw)))),
          rawlen := RAW_LENGTH,
          message := some (createMessage sys unit id) })

end byron_sx_chime

open Pilight in
/-- A raw pulse train (header 450, footer 2800, body 400) accepted by the
validators of both variants; used as a concrete validated frame. -/
def validTrain : ProtoState :=
  ⟨fun j => if j = 0 then 450 else if j = 41 then 2800 else 400, 42, none⟩
namespace Pilight

lemma update_apply (raw : ℤ → ℤ) (i v j : ℤ) :
    update raw i v j = if j = i then v else raw j := rfl

lemma pairLoopN_eval (v1 v2 : ℤ) (m : ℕ) (s : ℤ) (raw : ℤ → ℤ) (j : ℤ)
    (hs : s % 2 = 1) :
    pairLoopN v1 v2 m s raw j =
      if j % 2 = 1 ∧ s ≤ j ∧ j < s + 2 * m then v1
      else if j % 2 = 0 ∧ s + 1 ≤ j ∧ j < s + 1 + 2 * m then v2
      else raw j := by
  induction m generalizing s raw with
  | zero =>
      simp only [pairLoopN]
      rw [if_neg (by omega), if_neg (by omega)]
  | succ m ih =>
      simp only [pairLoopN]
      rw [ih (s + 2) _ (by omega)]
      simp only [update_apply]
      split_ifs <;> first | rfl | (exfalso; omega)

lemma pairLoop_eval (v1 v2 s e : ℤ) (raw : ℤ → ℤ) (j : ℤ)
    (hs : s % 2 = 1) :
    pairLoop v1 v2 s e raw j =
      if j % 2 = 1 ∧ s ≤ j ∧ j ≤ e then v1
      else if j % 2 = 0 ∧ s + 1 ≤ j ∧ j ≤ e + 1 then v2
      else raw j := by
  rw [pairLoop, pairLoopN_eval v1 v2 _ s raw j hs]
  by_cases hse : s ≤ e
  · rw [if_pos hse]
    split_ifs <;> first | rfl | (exfalso; omega)
  · rw [if_neg hse]
    split_ifs <;> first | rfl | (exfalso; omega)

lemma pairLoop_single (v1 v2 x : ℤ) (raw : ℤ → ℤ) :
    pairLoop v1 v2 x (x + 1) raw = update (update raw x v1) (x + 1) v2 := by
  rw [pairLoop, if_pos (by omega)]
  have h : (x + 1 - x).toNat / 2 + 1 = 1 := by omega
  rw [h]
  rfl

lemma fieldLoop_ne (v1 v2 : ℤ) (bs : List ℕ) (x : ℤ) (raw : ℤ → ℤ) (j : ℤ)
    (h : ∀ k : ℕ, k < bs.length → j ≠ x - 2 * k ∧ j ≠ x - 2 * k + 1) :
    fieldLoop v1 v2 bs x raw j = raw j := by
  induction bs generalizing x raw with
  | nil => rfl
  | cons b bs ih =>
      have h0 := h 0 (by simp)
      simp only [fieldLoop]
      rw [ih (x - 2) _ (by
        intro k hk
        have := h (k + 1) (by simpa using Nat.succ_lt_succ hk)
        push_cast at this ⊢
        omega)]
      by_cases hb : b = 1
      · rw [if_pos hb, pairLoop_single]
        simp only [update_apply]
        rw [if_neg (by push_cast at h0; omega), if_neg (by push_cast at h0; omega)]
      · rw [if_neg hb]

lemma fieldLoop_read (v1 v2 : ℤ) (bs : List ℕ) (x : ℤ) (raw : ℤ → ℤ) (k : ℕ) :
    fieldLoop v1 v2 bs x raw (x - 2 * (k : ℤ)) =
      if bs.getD k 0 = 1 then v1 else raw (x - 2 * (k : ℤ)) := by
  induction bs generalizing x raw k with
  | nil => simp [fieldLoop, List.getD]
  | cons b bs ih =>
      simp only [fieldLoop]
      cases k with
      | zero =>
          have hne : ∀ k : ℕ, k < bs.length →
              x - 2 * ((0 : ℕ) : ℤ) ≠ (x - 2) - 2 * k ∧
              x - 2 * ((0 : ℕ) : ℤ) ≠ (x - 2) - 2 * k + 1 := by
            intro k hk
            push_cast
            omega
          rw [fieldLoop_ne _ _ _ _ _ _ hne]
          simp only [List.getD_cons_zero]
          by_cases hb : b = 1
          · rw [if_pos hb, if_pos hb, pairLoop_single]
            simp only [update_apply]
            have h1 : x - 2 * ((0 : ℕ) : ℤ) ≠ x + 1 := by push_cast; omega
            have h2 : x - 2 * ((0 : ℕ) : ℤ) = x := by push_cast; omega
            rw [if_neg h1, if_pos h2]
          · rw [if_neg hb, if_neg hb]
      | succ k =>
          have hj : x - 2 * ((k + 1 : ℕ) : ℤ) = (x - 2) - 2 * (k : ℤ) := by
            push_cast
            ring
          rw [hj, ih (x - 2) _ k]
          simp only [List.getD_cons_succ]
          congr 1
          by_cases hb : b = 1
          · rw [if_pos hb, pairLoop_single]
            simp only [update_apply]
            have h1 : (x - 2) - 2 * (k : ℤ) ≠ x + 1 := by omega
            have h2 : (x - 2) - 2 * (k : ℤ) ≠ x := by omega
            rw [if_neg h1, if_neg h2]
          · rw [if_neg hb]

lemma fieldLoop_even_keep (v1 v2 : ℤ) (bs : List ℕ) (x : ℤ) (raw : ℤ → ℤ) (j : ℤ)
    (hx : x % 2 = 1) (hj : j % 2 = 0) (h : raw j = v2) :
    fieldLoop v1 v2 bs x raw j = v2 := by
  induction bs generalizing x raw with
  | nil => exact h
  | cons b bs ih =>
      simp only [fieldLoop]
      apply ih (x - 2) _ (by omega)
      by_cases hb : b = 1
      · rw [if_pos hb, pairLoop_single]
        simp only [update_apply]
        split_ifs with h1 h2
        · rfl
        · exfalso; omega
        · exact h
      · rw [if_neg hb]; exact h

end Pilight
namespace Pilight

lemma decToBinAux_lsbVal : ∀ (fuel n : ℕ), n ≤ fuel → lsbVal (decToBinAux fuel n) = n := by
  intro fuel
  induction fuel with
  | zero =>
      intro n hn
      interval_cases n
      rfl
  | succ fuel ih =>
      intro n hn
      match n with
      | 0 => rfl
      | n + 1 =>
          have hE : decToBinAux (fuel + 1) (n + 1) = (n + 1) % 2 :: decToBinAux fuel ((n + 1) / 2) := rfl
          rw [hE, lsbVal, ih ((n + 1) / 2) (by omega)]
          omega

lemma decToBinAux_length : ∀ (fuel n m : ℕ), n ≤ fuel → n < 2 ^ m →
    (decToBinAux fuel n).length ≤ m := by
  intro fuel
  induction fuel with
  | zero =>
      intro n m hn _
      interval_cases n
      simp [decToBinAux]
  | succ fuel ih =>
      intro n m hn hm
      match n with
      | 0 => simp [decToBinAux]
      | n + 1 =>
          have hE : decToBinAux (fuel + 1) (n + 1) = (n + 1) % 2 :: decToBinAux fuel ((n + 1) / 2) := rfl
          rw [hE]
          match m with
          | 0 => omega
          | m + 1 =>
              simp only [List.length_cons, Nat.add_le_add_iff_right]
              exact ih ((n + 1) / 2) m (by omega) (by
                have : 2 ^ (m + 1) = 2 ^ m * 2 := by ring
                omega)

lemma decToBinAux_le_one : ∀ (fuel n : ℕ), ∀ b ∈ decToBinAux fuel n, b ≤ 1 := by
  intro fuel
  induction fuel with
  | zero =>
      intro n b hb
      match n with
      | 0 => simp [decToBinAux] at hb
      | n + 1 => simp [decToBinAux] at hb
  | succ fuel ih =>
      intro n b hb
      match n with
      | 0 => simp [decToBinAux] at hb
      | n + 1 =>
          have hE : decToBinAux (fuel + 1) (n + 1) = (n + 1) % 2 :: decToBinAux fuel ((n + 1) / 2) := rfl
          rw [hE] at hb
          rcases List.mem_cons.mp hb with h | h
          · omega
          · exact ih _ b h

lemma getD_le_one (l : List ℕ) (h : ∀ b ∈ l, b ≤ 1) (k : ℕ) : l.getD k 0 ≤ 1 := by
  rcases lt_or_ge k l.length with hk | hk
  · rw [List.getD_eq_getElem l 0 hk]
    exact h _ (List.getElem_mem hk)
  · rw [List.getD_eq_default l 0 hk]
    omega

/-- The bit list driving `createSys`/`createUnit`/`createId`: the loop reads
`binary[length] … binary[0]`, the reverse of the MSB-first list, which is the
LSB-first expansion again. -/
lemma decToBin_reverse (v : ℤ) (h : 1 ≤ v) :
    (decToBin v).reverse = decToBinAux v.toNat v.toNat := by
  rw [decToBin, if_neg (by omega), List.reverse_reverse]

lemma decToBin_reverse_lsbVal (v : ℤ) (h : 0 ≤ v) :
    lsbVal (decToBin v).reverse = v.toNat := by
  rcases eq_or_lt_of_le h with h0 | h1
  · rw [decToBin, if_pos (by omega)]
    simp [lsbVal]
    omega
  · rw [decToBin_reverse v (by omega), decToBinAux_lsbVal _ _ le_rfl]

lemma decToBin_reverse_length (v : ℤ) (m : ℕ) (hm : 1 ≤ m) (h : v < 2 ^ m) :
    (decToBin v).reverse.length ≤ m := by
  rcases le_or_lt v 0 with h0 | h1
  · rw [decToBin, if_pos h0]
    simpa using hm
  · rw [decToBin_reverse v (by omega)]
    apply decToBinAux_length _ _ _ le_rfl
    have hcast : ((2 ^ m : ℕ) : ℤ) = 2 ^ m := by push_cast; rfl
    omega

lemma decToBin_reverse_le_one (v : ℤ) : ∀ b ∈ (decToBin v).reverse, b ≤ 1 := by
  intro b hb
  rcases le_or_lt v 0 with h0 | h1
  · rw [decToBin, if_pos h0] at hb
    simp at hb
    omega
  · rw [decToBin_reverse v (by omega)] at hb
    exact decToBinAux_le_one _ _ b hb

lemma lsbVal_eq_getD_sum (l : List ℕ) (m : ℕ) (h : l.length ≤ m) :
    lsbVal l = ∑ k ∈ Finset.range m, l.getD k 0 * 2 ^ k := by
  induction l generalizing m with
  | nil =>
      simp [lsbVal, List.getD]
  | cons b bs ih =>
      match m with
      | 0 => simp at h
      | m + 1 =>
          rw [Finset.sum_range_succ']
          simp only [List.getD_cons_succ, List.getD_cons_zero, pow_zero, mul_one]
          rw [lsbVal, ih m (by simpa using h)]
          rw [Finset.mul_sum]
          rw [add_comm]
          congr 1
          apply Finset.sum_congr rfl
          intro k _
          ring

end Pilight
namespace Pilight

lemma range_drop_eq (n s : ℕ) :
    (List.range n).drop s = (List.range (n - s)).map fun q => s + q := by
  apply List.ext_getElem
  · simp
  · intro i h1 h2
    simp [List.getElem_drop, List.getElem_range, List.getElem_map]

lemma map_range_slice (f : ℕ → ℕ) (n s w : ℕ) (h : s + w ≤ n) :
    (((List.range n).map f).drop s).take w = (List.range w).map fun q => f (s + q) := by
  rw [← List.map_drop, ← List.map_take, range_drop_eq, ← List.map_take, List.take_range]
  have hmin : w ⊓ (n - s) = w := by omega
  rw [hmin, List.map_map]
  rfl

lemma bitsVal_rev_getD_8 (l : List ℕ) (h : l.length ≤ 8) :
    bitsVal ((List.range 8).map fun q => l.getD (7 - q) 0) = lsbVal l := by
  have h8 : List.range 8 = [0, 1, 2, 3, 4, 5, 6, 7] := rfl
  rw [h8, lsbVal_eq_getD_sum l 8 h]
  simp only [List.map_cons, List.map_nil]
  norm_num [bitsVal, Finset.sum_range_succ]
  ring

lemma bitsVal_rev_getD_4 (l : List ℕ) (h : l.length ≤ 4) :
    bitsVal ((List.range 4).map fun q => l.getD (3 - q) 0) = lsbVal l := by
  have h4 : List.range 4 = [0, 1, 2, 3] := rfl
  rw [h4, lsbVal_eq_getD_sum l 4 h]
  simp only [List.map_cons, List.map_nil]
  norm_num [bitsVal, Finset.sum_range_succ]
  ring

end Pilight
namespace byron_sx_chime

open Pilight

lemma encodedRaw (r0 : ℤ → ℤ) (sys unit id : ℤ) (p : ℕ)
    (h2 : sys ≤ 255) (h4 : unit ≤ 255) (h6 : id ≤ 15) (hp : p ≤ 19) :
    createFooter 42
        (createId id (createUnit unit (createSys sys (clearCode 42 r0))))
        (2 * (p : ℤ) + 1) =
      if (if p ≤ 7 then (decToBin sys).reverse.getD (7 - p) 0
          else if p ≤ 15 then (decToBin unit).reverse.getD (15 - p) 0
          else (decToBin id).reverse.getD (19 - p) 0) = 1
      then PULSE_LONG else PULSE_SHORT := by
  have h256 : (2 : ℤ) ^ 8 = 256 := by norm_num
  have h16 : (2 : ℤ) ^ 4 = 16 := by norm_num
  have hS : (decToBin sys).reverse.length ≤ 8 :=
    decToBin_reverse_length _ 8 (by norm_num) (by omega)
  have hU : (decToBin unit).reverse.length ≤ 8 :=
    decToBin_reverse_length _ 8 (by norm_num) (by omega)
  have hI : (decToBin id).reverse.length ≤ 4 :=
    decToBin_reverse_length _ 4 (by norm_num) (by omega)
  simp only [createFooter, createId, createUnit, createSys, clearCode, createZero,
    createHeader, update_apply]
  rw [if_neg (by push_cast; omega)]
  have hzero : ∀ j : ℤ, j % 2 = 1 → 1 ≤ j → j ≤ 39 →
      pairLoop PULSE_SHORT PULSE_LONG 1 (((42 : ℕ) : ℤ) - 3) (update r0 0 PULSE_SHORT) j
        = PULSE_SHORT := by
    intro j hj1 hj2 hj3
    rw [pairLoop_eval _ _ _ _ _ _ (by norm_num), if_pos (by push_cast; omega)]
  by_cases hp7 : p ≤ 7
  · rw [fieldLoop_ne _ _ _ _ _ _ (by
      intro k hk
      constructor <;> omega)]
    rw [fieldLoop_ne _ _ _ _ _ _ (by
      intro k hk
      constructor <;> omega)]
    have hj : 2 * (p : ℤ) + 1 = 15 - 2 * ((7 - p : ℕ) : ℤ) := by
      have : ((7 - p : ℕ) : ℤ) = 7 - (p : ℤ) := by omega
      omega
    rw [hj, fieldLoop_read]
    rw [if_pos hp7]
    by_cases hb : (decToBin sys).reverse.getD (7 - p) 0 = 1
    · rw [if_pos hb, if_pos hb]
    · rw [if_neg hb, if_neg hb]
      exact hzero _ (by omega) (by omega) (by omega)
  · by_cases hp15 : p ≤ 15
    · rw [fieldLoop_ne _ _ _ _ _ _ (by
        intro k hk
        constructor <;> omega)]
      have hj : 2 * (p : ℤ) + 1 = 31 - 2 * ((15 - p : ℕ) : ℤ) := by
        have : ((15 - p : ℕ) : ℤ) = 15 - (p : ℤ) := by omega
        omega
      rw [hj, fieldLoop_read]
      rw [if_neg hp7, if_pos hp15]
      by_cases hb : (decToBin unit).reverse.getD (15 - p) 0 = 1
      · rw [if_pos hb, if_pos hb]
      · rw [if_neg hb, if_neg hb]
        rw [fieldLoop_ne _ _ _ _ _ _ (by
          intro k hk
          constructor <;> omega)]
        exact hzero _ (by omega) (by omega) (by omega)
    · have hj : 2 * (p : ℤ) + 1 = 39 - 2 * ((19 - p : ℕ) : ℤ) := by
        have : ((19 - p : ℕ) : ℤ) = 19 - (p : ℤ) := by omega
        omega
      rw [hj, fieldLoop_read]
      rw [if_neg hp7, if_neg hp15]
      by_cases hb : (decToBin id).reverse.getD (19 - p) 0 = 1
      · rw [if_pos hb, if_pos hb]
      · rw [if_neg hb, if_neg hb]
        rw [fieldLoop_ne _ _ _ _ _ _ (by
          intro k hk
          constructor <;> omega)]
        rw [fieldLoop_ne _ _ _ _ _ _ (by
          intro k hk
          constructor <;> omega)]
        exact hzero _ (by omega) (by omega) (by omega)

end byron_sx_chime
namespace Pilight

lemma binToDecRev_map_range (f : ℕ → ℕ) (n s e w : ℕ) (hw : e + 1 - s = w)
    (h : s + w ≤ n) :
    binToDecRev ((List.range n).map f) s e = bitsVal ((List.range w).map fun q => f (s + q)) := by
  rw [binToDecRev, hw, map_range_slice f n s w h]

end Pilight

namespace byron_sx_chime

open Pilight

lemma roundtrip (st : ProtoState) (sys unit id : ℤ)
    (h1 : 1 ≤ sys) (h2 : sys ≤ 255) (h3 : 1 ≤ unit) (h4 : unit ≤ 255)
    (h5 : 0 ≤ id) (h6 : id ≤ 15) :
    (parseCode (createCode [("systemcode", sys), ("unit", unit), ("id", id)] st).2).message
      = some (createMessage sys unit id) := by
  have h256 : (2 : ℤ) ^ 8 = 256 := by norm_num
  have h16 : (2 : ℤ) ^ 4 = 16 := by norm_num
  have hS : (decToBin sys).reverse.length ≤ 8 :=
    decToBin_reverse_length _ 8 (by norm_num) (by omega)
  have hU : (decToBin unit).reverse.length ≤ 8 :=
    decToBin_reverse_length _ 8 (by norm_num) (by omega)
  have hI : (decToBin id).reverse.length ≤ 4 :=
    decToBin_reverse_length _ 4 (by norm_num) (by omega)
  have e1 : json_find_number [("systemcode", sys), ("unit", unit), ("id", id)] "systemcode"
      = some sys := by
    rw [json_find_number, if_pos rfl]
  have e2 : json_find_number [("systemcode", sys), ("unit", unit), ("id", id)] "unit"
      = some unit := by
    rw [json_find_number, if_neg (by decide), json_find_number, if_pos rfl]
  have e3 : json_find_number [("systemcode", sys), ("unit", unit), ("id", id)] "id"
      = some id := by
    rw [json_find_number, if_neg (by decide), json_find_number, if_neg (by decide),
      json_find_number, if_pos rfl]
  simp only [createCode, e1, e2, e3, Option.getD_some]
  rw [if_neg (by omega)]
  dsimp only
  rw [parseCode]
  rw [if_neg (by norm_num [RAW_LENGTH])]
  dsimp only [binaryOf]
  norm_num [RAW_LENGTH]
  set F : ℕ → ℕ := fun p =>
    if longPulse (2 * p) <
        createFooter 42
          (createId id (createUnit unit (createSys sys (clearCode 42 st.raw))))
          (2 * (p : ℤ) + 1)
    then 1 else 0 with hF
  have hFq : ∀ q : ℕ, q ≤ 19 → F q =
      (if q ≤ 7 then (decToBin sys).reverse.getD (7 - q) 0
       else if q ≤ 15 then (decToBin unit).reverse.getD (15 - q) 0
       else (decToBin id).reverse.getD (19 - q) 0) := by
    intro q hq
    rw [hF]
    dsimp only
    rw [encodedRaw st.raw sys unit id q h2 h4 h6 hq]
    have hb : (if q ≤ 7 then (decToBin sys).reverse.getD (7 - q) 0
       else if q ≤ 15 then (decToBin unit).reverse.getD (15 - q) 0
       else (decToBin id).reverse.getD (19 - q) 0) ≤ 1 := by
      split_ifs <;> exact getD_le_one _ (decToBin_reverse_le_one _) _
    have hlt1 : ¬ (longPulse (2 * q) < PULSE_SHORT) := by
      rw [longPulse]
      split_ifs <;> norm_num [PULSE_50, PULSE_SHORT]
    have hlt2 : longPulse (2 * q) < PULSE_LONG := by
      rw [longPulse]
      split_ifs <;> norm_num [PULSE_50, PULSE_LONG]
    rcases Nat.le_one_iff_eq_zero_or_eq_one.mp hb with h | h <;> rw [h]
    · rw [if_neg Nat.zero_ne_one, if_neg hlt1]
    · rw [if_pos rfl, if_pos hlt2]
  have hSv : binToDecRev (List.map F (List.range 21)) 0 7 = sys.toNat := by
    rw [binToDecRev_map_range F 21 0 7 8 (by norm_num) (by norm_num)]
    have hc : (List.range 8).map (fun q => F (0 + q))
        = (List.range 8).map (fun q => (decToBin sys).reverse.getD (7 - q) 0) := by
      apply List.map_congr_left
      intro q hq
      have hq8 : q < 8 := List.mem_range.mp hq
      rw [hFq (0 + q) (by omega), if_pos (by omega)]
      have hsub : 7 - (0 + q) = 7 - q := by omega
      rw [hsub]
    rw [hc, bitsVal_rev_getD_8 _ hS, decToBin_reverse_lsbVal sys (by omega)]
  have hUv : binToDecRev (List.map F (List.range 21)) 8 15 = unit.toNat := by
    rw [binToDecRev_map_range F 21 8 15 8 (by norm_num) (by norm_num)]
    have hc : (List.range 8).map (fun q => F (8 + q))
        = (List.range 8).map (fun q => (decToBin unit).reverse.getD (7 - q) 0) := by
      apply List.map_congr_left
      intro q hq
      have hq8 : q < 8 := List.mem_range.mp hq
      rw [hFq (8 + q) (by omega), if_neg (by omega), if_pos (by omega)]
      have hsub : 15 - (8 + q) = 7 - q := by omega
      rw [hsub]
    rw [hc, bitsVal_rev_getD_8 _ hU, decToBin_reverse_lsbVal unit (by omega)]
  have hIv : binToDecRev (List.map F (List.range 21)) 16 19 = id.toNat := by
    rw [binToDecRev_map_range F 21 16 19 4 (by norm_num) (by norm_num)]
    have hc : (List.range 4).map (fun q => F (16 + q))
        = (List.range 4).map (fun q => (decToBin id).reverse.getD (3 - q) 0) := by
      apply List.map_congr_left
      intro q hq
      have hq4 : q < 4 := List.mem_range.mp hq
      rw [hFq (16 + q) (by omega), if_neg (by omega), if_neg (by omega)]
      have hsub : 19 - (16 + q) = 3 - q := by omega
      rw [hsub]
    rw [hc, bitsVal_rev_getD_4 _ hI, decToBin_reverse_lsbVal id (by omega)]
  rw [hSv, hUv, hIv, Int.toNat_of_nonneg (by omega : (0 : ℤ) ≤ sys),
    Int.toNat_of_nonneg (by omega : (0 : ℤ) ≤ unit),
    Int.toNat_of_nonneg (by omega : (0 : ℤ) ≤ id)]

end byron_sx_chime
namespace byron_by_chime

open Pilight

/-- After a successful build, the header slot still holds `AVG_PULSE_LENGTH`:
the field loops write only the one-pattern's second pulse (also
`AVG_PULSE_LENGTH`) at even indices, so index 0 keeps the value 400. -/
lemma encoded_raw0 (r0 : ℤ → ℤ) (sys unit id : ℤ) :
    createFooter RAW_LENGTH
        (createId id (createUnit unit (createSys sys (clearCode RAW_LENGTH r0)))) 0
      = AVG_PULSE_LENGTH := by
  simp only [createFooter, createId, createUnit, createSys, clearCode, createZero,
    createHeader, RAW_LENGTH, update_apply]
  norm_num
  apply fieldLoop_even_keep _ _ _ _ _ _ (by norm_num) (by norm_num)
  apply fieldLoop_even_keep _ _ _ _ _ _ (by norm_num) (by norm_num)
  apply fieldLoop_even_keep _ _ _ _ _ _ (by norm_num) (by norm_num)
  rw [pairLoop_eval _ _ _ _ _ _ (by norm_num)]
  norm_num [update_apply]

/-- The footer slot of a built frame holds `2400`. -/
lemma encoded_raw41 (r0 : ℤ → ℤ) (sys unit id : ℤ) :
    createFooter RAW_LENGTH
        (createId id (createUnit unit (createSys sys (clearCode RAW_LENGTH r0)))) 41
      = FOOTER_MULTIPLIER * AVG_PULSE_LENGTH := by
  simp only [createFooter, RAW_LENGTH, update_apply]
  norm_num

lemma by_validate_iff (st : ProtoState) :
    validate st = 0 ↔
      st.rawlen = 42 ∧ 407 ≤ st.raw 0 ∧ st.raw 0 ≤ 572 ∧
        2442 ≤ st.raw 41 ∧ st.raw 41 ≤ 3432 := by
  rw [validate]
  simp only [RAW_LENGTH, MIN_PULSE_LENGTH, MAX_PULSE_LENGTH, FOOTER_MULTIPLIER]
  by_cases h1 : st.rawlen = 42
  · rw [if_pos h1, h1]
    norm_num
    tauto
  · rw [if_neg h1]
    constructor
    · intro h
      norm_num at h
    · intro h
      exact absurd h.1 h1

end byron_by_chime

namespace byron_sx_chime

open Pilight

lemma sx_validate_iff (st : ProtoState) :
    validate st = 0 ↔
      st.rawlen = 42 ∧ 370 ≤ st.raw 0 ∧ st.raw 0 ≤ 710 ∧
        2700 ≤ st.raw 41 ∧ st.raw 41 ≤ 4500 := by
  rw [validate]
  simp only [RAW_LENGTH, MIN_PULSE_LENGTH, MAX_PULSE_LENGTH, AVG_PULSE_LENGTH, PULSE_SHORT]
  by_cases h1 : st.rawlen = 42
  · rw [if_pos h1, h1]
    norm_num
    tauto
  · rw [if_neg h1]
    constructor
    · intro h
      norm_num at h
    · intro h
      exact absurd h.1 h1

end byron_sx_chime

namespace Pilight

/-- `createCode` of either variant looks up the key "unit", which a
`createMessage`-shaped record (keys "systemcode", "unitcode", "id") never
contains. -/
lemma find_unit_none (a b c : ℤ) :
    json_find_number (createMessage a b c) "unit" = none := by
  rw [createMessage, json_find_number, if_neg (by decide), json_find_number,
    if_neg (by decide), json_find_number, if_neg (by decide), json_find_number]

end Pilight
namespace byron_by_chime
open Pilight

lemma by_validate_cases (st : ProtoState) : validate st = 0 ∨ validate st = -1 := by
  rw [validate]
  split_ifs <;> simp

/-- A state whose header slot holds 400 is always rejected (the minimum is 407). -/
lemma validate_of_raw0_400 (st : ProtoState) (h : st.raw 0 = 400) : validate st = -1 := by
  rcases by_validate_cases st with hv | hv
  · exfalso
    have hcond := (by_validate_iff st).mp hv
    omega
  · exact hv

end byron_by_chime

namespace byron_sx_chime
open Pilight

lemma sx_validate_cases (st : ProtoState) : validate st = 0 ∨ validate st = -1 := by
  rw [validate]
  split_ifs <;> simp

end byron_sx_chime
open Pilight

/-- Claim C1 (counterexample): the round-trip fails inside the declared legal
ranges.  For byron_by_chime, (5, 10, 3) encodes and then decodes to (0, 0, 0):
the encoder's long pulse (800µs) does not exceed the decoder's threshold
(814µs).  For byron_sx_chime, (300, 1, 1) — legal, since system may reach
65535 — decodes to (44, 1, 1), as only 8 bits of the system code survive. -/
theorem claimC1_cex :
    (byron_by_chime.parseCode
        (byron_by_chime.createCode [("systemcode", 5), ("unit", 10), ("id", 3)] initState).2).message
        = some (createMessage 0 0 0)
    ∧ (byron_by_chime.parseCode
        (byron_by_chime.createCode [("systemcode", 5), ("unit", 10), ("id", 3)] initState).2).message
        ≠ some (createMessage 5 10 3)
    ∧ (byron_sx_chime.parseCode
        (byron_sx_chime.createCode [("systemcode", 300), ("unit", 1), ("id", 1)] initState).2).message
        = some (createMessage 44 1 1)
    ∧ (byron_sx_chime.parseCode
        (byron_sx_chime.createCode [("systemcode", 300), ("unit", 1), ("id", 1)] initState).2).message
        ≠ some (createMessage 300 1 1) := by
  decide

/-- Claim C1 (amended): the round-trip holds for byron_sx_chime when every
field value fits its bit width — system and unit in 1..255, id in 0..15.
For byron_by_chime the encoded frame always decodes to all-zero fields, and
values above a field's bit width cannot be reproduced in either variant. -/
theorem claimC1 (st : ProtoState) (sys unit id : ℤ)
    (h1 : 1 ≤ sys) (h2 : sys ≤ 255) (h3 : 1 ≤ unit) (h4 : unit ≤ 255)
    (h5 : 0 ≤ id) (h6 : id ≤ 15) :
    (byron_sx_chime.parseCode
        (byron_sx_chime.createCode [("systemcode", sys), ("unit", unit), ("id", id)] st).2).message
      = some (createMessage sys unit id) :=
  byron_sx_chime.roundtrip st sys unit id h1 h2 h3 h4 h5 h6

/-- Witness for C1's amended theorem at (5, 10, 3). -/
theorem claimC1_witness :
    (byron_sx_chime.parseCode
        (byron_sx_chime.createCode [("systemcode", 5), ("unit", 10), ("id", 3)] initState).2).message
      = some (createMessage 5 10 3) :=
  claimC1 initState 5 10 3 (by norm_num) (by norm_num) (by norm_num) (by norm_num)
    (by norm_num) (by norm_num)

/-- Claim C2 (counterexample): decoding the frame built by byron_by_chime's
createCode from (5, 10, 3) does not return (5, 10, 3). -/
theorem claimC2_cex :
    (byron_by_chime.parseCode
        (byron_by_chime.createCode [("systemcode", 5), ("unit", 10), ("id", 3)] initState).2).message
      ≠ some (createMessage 5 10 3) := by
  decide

/-- Claim C2 (amended): byron_by_chime's createCode on (5, 10, 3) succeeds and
produces a 42-pulse train with raw[0] = 400 and raw[41] = 2400, but parseCode
on that exact train yields systemcode=0, unitcode=0, id=0 (the encoded long
pulse, 800µs, never exceeds the decode threshold 814µs). -/
theorem claimC2 :
    (byron_by_chime.createCode [("systemcode", 5), ("unit", 10), ("id", 3)] initState).1 = 0
    ∧ (byron_by_chime.createCode [("systemcode", 5), ("unit", 10), ("id", 3)] initState).2.rawlen = 42
    ∧ (byron_by_chime.createCode [("systemcode", 5), ("unit", 10), ("id", 3)] initState).2.raw 0 = 400
    ∧ (byron_by_chime.createCode [("systemcode", 5), ("unit", 10), ("id", 3)] initState).2.raw 41 = 2400
    ∧ (byron_by_chime.parseCode
        (byron_by_chime.createCode [("systemcode", 5), ("unit", 10), ("id", 3)] initState).2).message
        = some (createMessage 0 0 0) := by
  decide

/-- Claim C3 (counterexample): a concrete train accepted by byron_by_chime's
validator whose parseCode message, fed back to createCode, is rejected with
the insufficient-arguments failure (retVal 1), not accepted. -/
theorem claimC3_cex :
    byron_by_chime.validate validTrain = 0
    ∧ (byron_by_chime.parseCode validTrain).message = some (createMessage 0 0 0)
    ∧ (byron_by_chime.createCode (createMessage 0 0 0) validTrain).1 = 1 := by
  decide

/-- Claim C3 (amended): the message parseCode produces (keys "systemcode",
"unitcode", "id") is never consumable by createCode: createCode looks up the
key "unit", which the message lacks, so it always returns the
insufficient-arguments failure and leaves the state untouched, for both
variants. -/
theorem claimC3 (st st' : ProtoState) (m : List (String × ℤ)) :
    (byron_by_chime.validate st = 0 → (byron_by_chime.parseCode st).message = some m →
      byron_by_chime.createCode m st' = (1, st'))
    ∧ (byron_sx_chime.validate st = 0 → (byron_sx_chime.parseCode st).message = some m →
      byron_sx_chime.createCode m st' = (1, st')) := by
  have hby : ∀ a b c : ℤ, byron_by_chime.createCode (createMessage a b c) st' = (1, st') := by
    intro a b c
    simp [byron_by_chime.createCode, find_unit_none, Option.getD_none]
  have hsx : ∀ a b c : ℤ, byron_sx_chime.createCode (createMessage a b c) st' = (1, st') := by
    intro a b c
    simp [byron_sx_chime.createCode, find_unit_none, Option.getD_none]
  constructor
  · intro hv hm
    have hlen : ¬ (byron_by_chime.RAW_LENGTH < st.rawlen) := by
      have := (byron_by_chime.by_validate_iff st).mp hv
      simp only [byron_by_chime.RAW_LENGTH]
      omega
    rw [byron_by_chime.parseCode, if_neg hlen] at hm
    obtain ⟨rfl⟩ := Option.some.inj hm
    exact hby _ _ _
  · intro hv hm
    have hlen : ¬ (byron_sx_chime.RAW_LENGTH < st.rawlen) := by
      have := (byron_sx_chime.sx_validate_iff st).mp hv
      simp only [byron_sx_chime.RAW_LENGTH]
      omega
    rw [byron_sx_chime.parseCode, if_neg hlen] at hm
    obtain ⟨rfl⟩ := Option.some.inj hm
    exact hsx _ _ _

/-- Claim C4 (confirmed): the validators succeed exactly on 42-pulse trains
whose header (index 0) and footer (index 41) lie inside the variant's window,
bounds inclusive: byron_by_chime accepts header in [407, 572] and footer in
[2442, 3432]; byron_sx_chime accepts header in [370, 710] and footer in
[2700, 4500]; any other length fails. -/
theorem claimC4 (st : ProtoState) :
    (byron_by_chime.validate st = 0 ↔
      st.rawlen = 42 ∧ 407 ≤ st.raw 0 ∧ st.raw 0 ≤ 572 ∧
        2442 ≤ st.raw 41 ∧ st.raw 41 ≤ 3432)
    ∧ (byron_sx_chime.validate st = 0 ↔
      st.rawlen = 42 ∧ 370 ≤ st.raw 0 ∧ st.raw 0 ≤ 710 ∧
        2700 ≤ st.raw 41 ∧ st.raw 41 ≤ 4500) :=
  ⟨byron_by_chime.by_validate_iff st, byron_sx_chime.sx_validate_iff st⟩

/-- Claim C5 (counterexample): byron_by_chime's createCode with
systemcode = 256 (above the 8-bit field) reports success (retVal 0), builds
the frame (raw[1] becomes 400), and even writes a pulse at index -1 —
outside the 42-slot frame — instead of aborting with no partial frame. -/
theorem claimC5_cex :
    (byron_by_chime.createCode [("systemcode", 256), ("unit", 1), ("id", 1)] initState).1 = 0
    ∧ (byron_by_chime.createCode [("systemcode", 256), ("unit", 1), ("id", 1)] initState).2.raw 1 = 400
    ∧ (byron_by_chime.createCode [("systemcode", 256), ("unit", 1), ("id", 1)] initState).2.raw (-1) = 800 := by
  decide

/-- Claim C5 (amended): createCode performs no bit-width validation: whenever
all three fields are present (values other than the -1 sentinel), it reports
success and builds a frame, even when a value exceeds its declared bit
width, for both variants. -/
theorem claimC5 (st : ProtoState) (sys unit id : ℤ)
    (hs : sys ≠ -1) (hu : unit ≠ -1) (hi : id ≠ -1) :
    (byron_by_chime.createCode [("systemcode", sys), ("unit", unit), ("id", id)] st).1 = 0
    ∧ (byron_sx_chime.createCode [("systemcode", sys), ("unit", unit), ("id", id)] st).1 = 0 := by
  have e1 : json_find_number [("systemcode", sys), ("unit", unit), ("id", id)] "systemcode"
      = some sys := by
    rw [json_find_number, if_pos rfl]
  have e2 : json_find_number [("systemcode", sys), ("unit", unit), ("id", id)] "unit"
      = some unit := by
    rw [json_find_number, if_neg (by decide), json_find_number, if_pos rfl]
  have e3 : json_find_number [("systemcode", sys), ("unit", unit), ("id", id)] "id"
      = some id := by
    rw [json_find_number, if_neg (by decide), json_find_number, if_neg (by decide),
      json_find_number, if_pos rfl]
  have hcond : ¬ (sys = -1 ∨ unit = -1 ∨ id = -1) := by tauto
  constructor
  · simp only [byron_by_chime.createCode, e1, e2, e3, Option.getD_some]
    rw [if_neg hcond]
  · simp only [byron_sx_chime.createCode, e1, e2, e3, Option.getD_some]
    rw [if_neg hcond]

/-- Witness for C5's amended theorem: an overflowing systemcode (256) is
still encoded successfully by both variants. -/
theorem claimC5_witness :
    (byron_by_chime.createCode [("systemcode", 256), ("unit", 1), ("id", 1)] initState).1 = 0
    ∧ (byron_sx_chime.createCode [("systemcode", 256), ("unit", 1), ("id", 1)] initState).1 = 0 :=
  claimC5 initState 256 1 1 (by norm_num) (by norm_num) (by norm_num)

/-- Claim C6 (confirmed): if any of the three mandatory fields (systemcode,
unit, id) is absent from the input record, createCode of either variant
returns the failure value 1 and the state — raw buffer and rawlen included —
is completely untouched. -/
theorem claimC6 (code : List (String × ℤ)) (st : ProtoState)
    (h : json_find_number code "systemcode" = none
      ∨ json_find_number code "unit" = none
      ∨ json_find_number code "id" = none) :
    byron_by_chime.createCode code st = (1, st)
    ∧ byron_sx_chime.createCode code st = (1, st) := by
  rcases h with h | h | h <;>
    exact ⟨by simp [byron_by_chime.createCode, h], by simp [byron_sx_chime.createCode, h]⟩

/-- Witness for C6 at the empty record. -/
theorem claimC6_witness :
    byron_by_chime.createCode [] initState = (1, initState)
    ∧ byron_sx_chime.createCode [] initState = (1, initState) :=
  claimC6 [] initState (Or.inl rfl)

/-- Claim C7 (confirmed): byron_sx_chime's demodulation threshold for the
first pulse pair (x = 0) is exactly 50µs below the constant threshold used
for every other pair, while byron_by_chime uses one identical threshold for
every pair. -/
theorem claimC7 :
    byron_sx_chime.longPulse 0 = byron_sx_chime.longPulse 2 - 50
    ∧ (∀ x : ℕ, x ≠ 0 → byron_sx_chime.longPulse x = byron_sx_chime.longPulse 2)
    ∧ (∀ x y : ℕ, byron_by_chime.longPulse x = byron_by_chime.longPulse y) := by
  refine ⟨rfl, fun x hx => ?_, fun x y => rfl⟩
  rw [byron_sx_chime.longPulse, if_neg hx]
  rfl

/-- Claim C8 (confirmed): whenever createCode succeeds (returns 0), the
resulting train length is the constant 42, for both variants and any input. -/
theorem claimC8 (code : List (String × ℤ)) (st : ProtoState) :
    ((byron_by_chime.createCode code st).1 = 0 →
      (byron_by_chime.createCode code st).2.rawlen = 42)
    ∧ ((byron_sx_chime.createCode code st).1 = 0 →
      (byron_sx_chime.createCode code st).2.rawlen = 42) := by
  constructor
  · intro h
    simp only [byron_by_chime.createCode] at h ⊢
    split_ifs at h ⊢ with hc
    · dsimp only at h
      exact absurd h (by norm_num)
    · rfl
  · intro h
    simp only [byron_sx_chime.createCode] at h ⊢
    split_ifs at h ⊢ with hc
    · dsimp only at h
      exact absurd h (by norm_num)
    · rfl

/-- Claim C9 (confirmed): every frame byron_by_chime's createCode builds is
rejected by byron_by_chime's own validate: the header written is 400, below
the validator's minimum 407 (and the footer 2400 is below 2442). -/
theorem claimC9 (code : List (String × ℤ)) (st : ProtoState)
    (h : (byron_by_chime.createCode code st).1 = 0) :
    (byron_by_chime.createCode code st).2.raw 0 = 400
    ∧ (byron_by_chime.createCode code st).2.raw 41 = 2400
    ∧ byron_by_chime.validate (byron_by_chime.createCode code st).2 = -1 := by
  simp only [byron_by_chime.createCode] at h ⊢
  split_ifs at h ⊢ with hc
  · dsimp only at h
    exact absurd h (by norm_num)
  · dsimp only
    have h0 := byron_by_chime.encoded_raw0 st.raw
      ((json_find_number code "systemcode").getD (-1))
      ((json_find_number code "unit").getD (-1))
      ((json_find_number code "id").getD (-1))
    have h41 := byron_by_chime.encoded_raw41 st.raw
      ((json_find_number code "systemcode").getD (-1))
      ((json_find_number code "unit").getD (-1))
      ((json_find_number code "id").getD (-1))
    exact ⟨h0, h41, byron_by_chime.validate_of_raw0_400 _ h0⟩

/-- Claim C10 (confirmed): byron_sx_chime round-trip under the field bit
widths: for system and unit in 1..255 and id in 0..15, parseCode on the
createCode-built frame returns exactly the original values. -/
theorem claimC10 (st : ProtoState) (sys unit id : ℤ)
    (h1 : 1 ≤ sys) (h2 : sys ≤ 255) (h3 : 1 ≤ unit) (h4 : unit ≤ 255)
    (h5 : 0 ≤ id) (h6 : id ≤ 15) :
    (byron_sx_chime.parseCode
        (byron_sx_chime.createCode [("systemcode", sys), ("unit", unit), ("id", id)] st).2).message
      = some (createMessage sys unit id) :=
  byron_sx_chime.roundtrip st sys unit id h1 h2 h3 h4 h5 h6

/-- Witness for C10 at the extreme in-range values (255, 255, 15). -/
theorem claimC10_witness :
    (byron_sx_chime.parseCode
        (byron_sx_chime.createCode [("systemcode", 255), ("unit", 255), ("id", 15)] initState).2).message
      = some (createMessage 255 255 15) :=
  claimC10 initState 255 255 15 (by norm_num) (by norm_num) (by norm_num) (by norm_num)
    (by norm_num) (by norm_num)

/-- Witness for C9 at (5, 10, 3). -/
theorem claimC9_witness :
    (byron_by_chime.createCode [("systemcode", 5), ("unit", 10), ("id", 3)] initState).2.raw 0 = 400
    ∧ (byron_by_chime.createCode [("systemcode", 5), ("unit", 10), ("id", 3)] initState).2.raw 41 = 2400
    ∧ byron_by_chime.validate
        (byron_by_chime.createCode [("systemcode", 5), ("unit", 10), ("id", 3)] initState).2 = -1 :=
  claimC9 [("systemcode", 5), ("unit", 10), ("id", 3)] initState (by decide)
